import Mathlib

/-!
Shallow embedding of the scavenger-hunt backend (`backend/app`) and proofs
about its specified behaviour.

The embedding covers:
* the Python string operations used by `AIService.validate_photo`
  (`str.startswith`, `str.split`, substring containment, `str.find`,
  slicing, `str.strip`) and a model of `json.loads`;
* the verdict-parsing step of `AIService.validate_photo`
  (`backend/app/services/ai_service.py`, lines 90-95);
* the request schemas of `backend/app/models/schemas.py`
  (`ChildRegister`, `ActivityBase`/`ActivityCreate`,
  `GenerateActivitiesRequest`, `ChildResponse`);
* the route handlers of `backend/app/routes/children.py`
  (`register_child`, `get_child`, `get_tokens`);
* a transition system for the completion/reward pipeline.  The pipeline
  routes are not part of the sources at hand, so its transitions are
  modelled from the specification (see the doc comments marked
  `Modelled from the spec:`); the record defaults come from
  `backend/app/db/models.py`.
-/

/-! ## Python string helpers -/

/-- `startsList pre l` : the list `l` starts with the list `pre`
(character-wise model of Python `str.startswith` on exploded strings). -/
def startsList : List Char → List Char → Bool
  | [], _ => true
  | _ :: _, [] => false
  | a :: as, b :: bs => a == b && startsList as bs

/-- First index at which `needle` occurs in `hay`, if any
(model of the search underlying Python `str.find`). -/
def findSubIdx (needle hay : List Char) : Option Nat :=
  match hay with
  | [] => if needle.isEmpty then some 0 else none
  | _ :: t =>
    if startsList needle hay then some 0
    else (findSubIdx needle t).map (· + 1)

/-- Model of Python's `sub in s` substring test. -/
def containsSub (hay needle : List Char) : Bool :=
  (findSubIdx needle hay).isSome

/-- Model of Python `s.find(sub)`: index of first occurrence, `-1` if absent. -/
def pyFind (hay sub : String) : Int :=
  match findSubIdx sub.toList hay.toList with
  | some n => (n : Int)
  | none => -1

/-- Model of Python `s[i:]` (negative indices count from the end,
clamped at the start of the string). -/
def pySliceFrom (s : String) (i : Int) : String :=
  if 0 ≤ i then String.mk (s.toList.drop i.toNat)
  else String.mk (s.toList.drop (s.toList.length - i.natAbs))

/-- The characters stripped by Python `str.strip()` (ASCII whitespace). -/
def isPySpace (c : Char) : Bool :=
  c == ' ' || c == '\t' || c == '\n' || c == '\r' ||
    c == Char.ofNat 11 || c == Char.ofNat 12

/-- Model of Python `s.strip()`. -/
def pyStrip (s : String) : String :=
  String.mk (((s.toList.dropWhile isPySpace).reverse.dropWhile isPySpace).reverse)

/-- Split worker: scans `cs` for occurrences of the non-empty separator
`sep`, accumulating the current piece in reverse in `acc`.  The fuel is at
least `cs.length + 1`, so it never runs out. -/
def splitFuel (sep : List Char) : Nat → List Char → List Char → List (List Char)
  | 0, cs, acc => [acc.reverse ++ cs]
  | fuel + 1, cs, acc =>
    match cs with
    | [] => [acc.reverse]
    | c :: t =>
      if startsList sep cs then
        acc.reverse :: splitFuel sep fuel (cs.drop sep.length) []
      else splitFuel sep fuel t (c :: acc)

/-- Model of Python `s.split(sep)` for a non-empty separator. -/
def pySplit (s sep : String) : List String :=
  (splitFuel sep.toList (s.toList.length + 1) s.toList []).map String.mk

/-! ## A model of Python `json.loads`

JSON values as parsed by Python's `json` module.  Numbers are kept as their
validated source lexeme: no claim in this development depends on numeric
arithmetic, and keeping the lexeme avoids a floating-point model.  Objects
are kept as field lists in source order (Python's `dict` would collapse
duplicate keys; the inputs relevant here have none).  The `NaN`/`Infinity`
extensions of Python's decoder are not modelled. -/

inductive Json where
  | null
  | bool (b : Bool)
  | num (lexeme : String)
  | str (s : String)
  | arr (elems : List Json)
  | obj (fields : List (String × Json))
deriving Repr, Inhabited

/-- JSON inter-token whitespace accepted by Python's decoder. -/
def isJsonWs (c : Char) : Bool :=
  c == ' ' || c == '\t' || c == '\n' || c == '\r'

/-- Skip inter-token whitespace. -/
def skipWs (cs : List Char) : List Char :=
  cs.dropWhile isJsonWs

/-- Value of one hex digit, if it is one. -/
def hexVal (c : Char) : Option Nat :=
  if '0' ≤ c ∧ c ≤ '9' then some (c.toNat - '0'.toNat)
  else if 'a' ≤ c ∧ c ≤ 'f' then some (c.toNat - 'a'.toNat + 10)
  else if 'A' ≤ c ∧ c ≤ 'F' then some (c.toNat - 'A'.toNat + 10)
  else none

/-- Single-character JSON string escapes. -/
def escChar : Char → Option Char
  | '"' => some '"'
  | '\\' => some '\\'
  | '/' => some '/'
  | 'b' => some (Char.ofNat 8)
  | 'f' => some (Char.ofNat 12)
  | 'n' => some '\n'
  | 'r' => some '\r'
  | 't' => some '\t'
  | _ => none

/-- Parse the body of a JSON string (after the opening quote), returning the
decoded characters and the rest of the input.  Strict mode: raw control
characters are rejected; `\\u` escapes decode a single code unit
(surrogate-pair recombination is not modelled — no input here uses it). -/
def parseStrBody : List Char → Option (List Char × List Char)
  | [] => none
  | '"' :: rest => some ([], rest)
  | '\\' :: 'u' :: h1 :: h2 :: h3 :: h4 :: rest => do
    let v1 ← hexVal h1
    let v2 ← hexVal h2
    let v3 ← hexVal h3
    let v4 ← hexVal h4
    let (s, r) ← parseStrBody rest
    pure (Char.ofNat (((v1 * 16 + v2) * 16 + v3) * 16 + v4) :: s, r)
  | '\\' :: e :: rest => do
    let c ← escChar e
    let (s, r) ← parseStrBody rest
    pure (c :: s, r)
  | c :: rest =>
    if c.toNat < 32 then none
    else do
      let (s, r) ← parseStrBody rest
      pure (c :: s, r)

/-- Integer part of a JSON number: `0` or a nonzero digit followed by digits. -/
def parseIntPart : List Char → Option (List Char × List Char)
  | [] => none
  | '0' :: rest => some (['0'], rest)
  | c :: rest =>
    if c.isDigit then
      let (ds, r) := rest.span Char.isDigit
      some (c :: ds, r)
    else none

/-- Optional fractional part `.digits`; consumed only when well formed,
mirroring the decoder's regular expression. -/
def parseFrac : List Char → (List Char × List Char)
  | '.' :: rest =>
    match rest.span Char.isDigit with
    | (d :: ds, r) => ('.' :: d :: ds, r)
    | ([], _) => ([], '.' :: rest)
  | cs => ([], cs)

/-- Optional exponent part `[eE][+-]?digits`; consumed only when well formed. -/
def parseExp : List Char → (List Char × List Char)
  | [] => ([], [])
  | c :: rest =>
    if c == 'e' || c == 'E' then
      match rest with
      | s :: r2 =>
        if s == '+' || s == '-' then
          match r2.span Char.isDigit with
          | (d :: ds, r3) => (c :: s :: d :: ds, r3)
          | ([], _) => ([], c :: rest)
        else
          match rest.span Char.isDigit with
          | (d :: ds, r3) => (c :: d :: ds, r3)
          | ([], _) => ([], c :: rest)
      | [] => ([], [c])
    else ([], c :: rest)

/-- A JSON number lexeme starting at an integer part. -/
def numAfterSign (cs : List Char) : Option (List Char × List Char) :=
  match parseIntPart cs with
  | none => none
  | some (ip, r1) =>
    let (fp, r2) := parseFrac r1
    let (ep, r3) := parseExp r2
    some (ip ++ fp ++ ep, r3)

/-- A JSON number lexeme, with optional leading minus sign. -/
def parseNumLex : List Char → Option (List Char × List Char)
  | '-' :: rest => (numAfterSign rest).map (fun p => ('-' :: p.1, p.2))
  | cs => numAfterSign cs

mutual

/-- Parse one JSON value (fuel-bounded recursive descent). -/
def parseVal : Nat → List Char → Option (Json × List Char)
  | 0, _ => none
  | fuel + 1, cs =>
    match skipWs cs with
    | 'n' :: 'u' :: 'l' :: 'l' :: rest => some (.null, rest)
    | 't' :: 'r' :: 'u' :: 'e' :: rest => some (.bool true, rest)
    | 'f' :: 'a' :: 'l' :: 's' :: 'e' :: rest => some (.bool false, rest)
    | '"' :: rest =>
      (parseStrBody rest).map (fun p => (.str (String.mk p.1), p.2))
    | '{' :: rest =>
      match skipWs rest with
      | '}' :: r2 => some (.obj [], r2)
      | _ => (parseObjFields fuel rest).map (fun p => (.obj p.1, p.2))
    | '[' :: rest =>
      match skipWs rest with
      | ']' :: r2 => some (.arr [], r2)
      | _ => (parseArrElems fuel rest).map (fun p => (.arr p.1, p.2))
    | cs' =>
      match parseNumLex cs' with
      | some (lex, r) => some (.num (String.mk lex), r)
      | none => none

/-- Parse the non-empty field list of a JSON object, up to and including the
closing brace. -/
def parseObjFields : Nat → List Char → Option (List (String × Json) × List Char)
  | 0, _ => none
  | fuel + 1, cs =>
    match skipWs cs with
    | '"' :: r1 =>
      match parseStrBody r1 with
      | none => none
      | some (k, r2) =>
        match skipWs r2 with
        | ':' :: r3 =>
          match parseVal fuel r3 with
          | none => none
          | some (v, r4) =>
            match skipWs r4 with
            | ',' :: r5 =>
              (parseObjFields fuel r5).map
                (fun p => ((String.mk k, v) :: p.1, p.2))
            | '}' :: r5 => some ([(String.mk k, v)], r5)
            | _ => none
        | _ => none
    | _ => none

/-- Parse the non-empty element list of a JSON array, up to and including the
closing bracket. -/
def parseArrElems : Nat → List Char → Option (List Json × List Char)
  | 0, _ => none
  | fuel + 1, cs =>
    match parseVal fuel cs with
    | none => none
    | some (v, r1) =>
      match skipWs r1 with
      | ',' :: r2 => (parseArrElems fuel r2).map (fun p => (v :: p.1, p.2))
      | ']' :: r2 => some ([v], r2)
      | _ => none

end

/-- Model of Python `json.loads`: parse one JSON document and require that
only whitespace follows it (otherwise Python raises `JSONDecodeError`,
modelled as `none`). -/
def jsonLoads (s : String) : Option Json :=
  let cs := s.toList
  match parseVal (2 * cs.length + 2) cs with
  | some (j, rest) => if (skipWs rest).isEmpty then some j else none
  | none => none

/-! ## `AIService` (`backend/app/services/ai_service.py`) -/

/-- Python-level failures raised by the embedded service code. -/
inductive PyErr where
  | jsonDecodeError
  | valueError (msg : String)
deriving Repr, DecidableEq

/-- The fence-stripping preprocessing of `validate_photo`
(`ai_service.py` lines 91-94):

```python
if text.startswith("```"):
    text = text.split("```")[1]
    if "json" in text[:10]:
        text = text[text.find("{"):]
```
-/
def fenceStrip (text : String) : String :=
  if startsList "```".toList text.toList then
    let t := (pySplit text "```").getD 1 ""
    if containsSub (t.toList.take 10) "json".toList then
      pySliceFrom t (pyFind t "\x7b")
    else t
  else text

/-- The verdict-parsing step of `validate_photo` (`ai_service.py` lines
90-95): fence preprocessing, then `json.loads(text.strip())`.  A decode
failure is Python's `json.JSONDecodeError` propagating out of the call. -/
def parseVerdictStep (text : String) : Except PyErr Json :=
  match jsonLoads (pyStrip (fenceStrip text)) with
  | some j => .ok j
  | none => .error .jsonDecodeError

/-- `AIService`: holds the Groq client when an API key is configured
(`ai_service.py` lines 16-17).  The client itself is opaque. -/
structure AIService where
  client : Option Unit

/-- Python truthiness of an optional string (`settings.groq_api_key`):
`None` and the empty string are falsy. -/
def pyTruthyStr : Option String → Bool
  | none => false
  | some s => s != ""

/-- `AIService.__init__`: `Groq(...) if settings.groq_api_key else None`. -/
def mkAIService (groq_api_key : Option String) : AIService :=
  ⟨if pyTruthyStr groq_api_key then some () else none⟩

/-- `AIService.validate_photo` (`ai_service.py` lines 50-95).  The external
model call is nondeterministic, so its raw textual response is supplied as
the oracle argument `rawResponse`; the function reads no other state and
writes none.  With no client configured it raises
`ValueError("GROQ_API_KEY not configured")` before any network call. -/
def validate_photo (svc : AIService)
    (_image_base64 _activity_description _validation_criteria : String)
    (rawResponse : String) : Except PyErr Json :=
  match svc.client with
  | none => .error (.valueError "GROQ_API_KEY not configured")
  | some _ => parseVerdictStep rawResponse

/-! ## Dates and ages (`schemas.py`, `db/models.py`) -/

/-- A Python `datetime.date`. -/
structure PyDate where
  year : Int
  month : Nat
  day : Nat
deriving Repr, DecidableEq

/-- Python tuple comparison `(a1, a2) < (b1, b2)` on (month, day) pairs. -/
def monthDayLt (a b : Nat × Nat) : Bool :=
  a.1 < b.1 || (a.1 == b.1 && a.2 < b.2)

/-- The age computation shared by `Child.age` (`db/models.py` lines 28-34)
and `ChildRegister` (`schemas.py` lines 62-79):
`today.year - dob.year - ((today.month, today.day) < (dob.month, dob.day))`.
`today` is the ambient `date.today()`, passed explicitly. -/
def computeAge (today dob : PyDate) : Int :=
  today.year - dob.year -
    (if monthDayLt (today.month, today.day) (dob.month, dob.day) then 1 else 0)

/-! ## Request schemas (`backend/app/models/schemas.py`) -/

/-- `ChildRegister` request payload (`schemas.py` lines 55-60). -/
structure ChildRegister where
  name : String
  date_of_birth : PyDate
  password : Option String
deriving Repr, DecidableEq

/-- The `age_must_be_5_to_12` model validator (`schemas.py` lines 62-71):
raises unless the computed age lies in `[5, 12]`. -/
def ageValidator (today : PyDate) (req : ChildRegister) : Except String ChildRegister :=
  if computeAge today req.date_of_birth < 5 ∨ 12 < computeAge today req.date_of_birth then
    .error "Child must be between 5 and 12 years old"
  else .ok req

/-- Full pydantic validation of `ChildRegister`: field constraints
(`name`: length 1-100; `password`: absent or length ≥ 6), then the
`age_must_be_5_to_12` model validator. -/
def childRegisterValidate (today : PyDate) (req : ChildRegister) : Except String ChildRegister :=
  if req.name.length < 1 then .error "String should have at least 1 character"
  else if 100 < req.name.length then .error "String should have at most 100 characters"
  else if (match req.password with
           | some p => decide (p.length < 6)
           | none => false) then .error "String should have at least 6 characters"
  else ageValidator today req

/-- Activity category enum (`schemas.py` lines 10-16). -/
inductive ActivityCategory where
  | city
  | beach
  | bush
  | garden
deriving Repr, DecidableEq

/-- `ActivityCreate` payload (`schemas.py` lines 19-34). -/
structure ActivityCreate where
  title : String
  description : String
  category : ActivityCategory
  age_min : Int
  age_max : Int
  location_sydney : String
  tokens_reward : Int
  ai_validation_prompt : Option String
deriving Repr, DecidableEq

/-- Pydantic field constraints of `ActivityBase`/`ActivityCreate`:
`age_min`, `age_max` each `ge=5, le=12`; `tokens_reward ge=1`.
There is no constraint relating `age_min` to `age_max`. -/
def activityCreateValid (a : ActivityCreate) : Bool :=
  decide (5 ≤ a.age_min) && decide (a.age_min ≤ 12) &&
    decide (5 ≤ a.age_max) && decide (a.age_max ≤ 12) &&
    decide (1 ≤ a.tokens_reward)

/-- `GenerateActivitiesRequest` payload (`schemas.py` lines 117-124). -/
structure GenerateActivitiesRequest where
  category : ActivityCategory
  age_min : Int
  age_max : Int
  location_sydney : String
  count : Int
deriving Repr, DecidableEq

/-- Pydantic field constraints of `GenerateActivitiesRequest`:
`age_min`, `age_max` each `ge=5, le=12`; `count` in `[1, 20]`.
There is no constraint relating `age_min` to `age_max`. -/
def generateRequestValid (g : GenerateActivitiesRequest) : Bool :=
  decide (5 ≤ g.age_min) && decide (g.age_min ≤ 12) &&
    decide (5 ≤ g.age_max) && decide (g.age_max ≤ 12) &&
    decide (1 ≤ g.count) && decide (g.count ≤ 20)

/-! ## Children routes (`backend/app/routes/children.py`) -/

/-- A stored `Child` row (`db/models.py` lines 15-26).  `token_balance` is
modelled as optional to cover a NULL being read back, which is exactly the
case the routes' `or 0` guards against. -/
structure ChildRow where
  name : String
  date_of_birth : PyDate
  password_hash : Option String
  token_balance : Option Int
deriving Repr, DecidableEq

/-- Python `x or 0` on an optional integer: `None` and `0` are falsy. -/
def pyIntOrZero : Option Int → Int
  | none => 0
  | some v => if v == 0 then 0 else v

/-- `register_child` (`children.py` lines 15-36): builds the `Child` row
with `token_balance=0` and `password_hash = hash_password(req.password) if
req.password else None`.  `hash_password` lives in the (absent)
`auth_service` module and is abstracted as `hashFn`. -/
def register_child (hashFn : String → String) (req : ChildRegister) : ChildRow :=
  { name := req.name
    date_of_birth := req.date_of_birth
    password_hash :=
      match req.password with
      | some p => if p == "" then none else some (hashFn p)
      | none => none
    token_balance := some 0 }

/-- `ChildResponse` (`schemas.py` lines 48-52, 82-89): note the inherited
pydantic constraint `age = Field(ge=5, le=12)`, enforced when the response
model is constructed inside the route handlers. -/
structure ChildResponse where
  id : Nat
  name : String
  age : Int
  token_balance : Int
deriving Repr, DecidableEq

/-- Pydantic construction of a `ChildResponse`: raises a validation error
when `age` falls outside `[5, 12]`. -/
def mkChildResponse (id : Nat) (name : String) (age : Int) (token_balance : Int) :
    Except String ChildResponse :=
  if age < 5 ∨ 12 < age then .error "Input should be less than or equal to 12"
  else .ok ⟨id, name, age, token_balance⟩

/-- Route-level failures. -/
inductive RouteErr where
  | http (status : Nat) (detail : String)
  | validation (msg : String)
deriving Repr, DecidableEq

/-- `get_child` (`children.py` lines 39-53): 404 when the child is absent,
otherwise `ChildResponse(..., token_balance=child.token_balance or 0)`. -/
def get_child (today : PyDate) (store : Nat → Option ChildRow) (child_id : Nat) :
    Except RouteErr ChildResponse :=
  match store child_id with
  | none => .error (.http 404 "Child not found")
  | some child =>
    match mkChildResponse child_id child.name (computeAge today child.date_of_birth)
        (pyIntOrZero child.token_balance) with
    | .ok r => .ok r
    | .error m => .error (.validation m)

/-- The JSON body returned by `get_tokens`. -/
structure TokensResponse where
  child_id : Nat
  tokens : Int
deriving Repr, DecidableEq

/-- `get_tokens` (`children.py` lines 56-65): 404 when the child is absent,
otherwise `{"child_id": child_id, "tokens": child.token_balance or 0}`. -/
def get_tokens (store : Nat → Option ChildRow) (child_id : Nat) :
    Except RouteErr TokensResponse :=
  match store child_id with
  | none => .error (.http 404 "Child not found")
  | some child => .ok ⟨child_id, pyIntOrZero child.token_balance⟩

/-! ## The completion/reward pipeline as a transition system

The submission/award routes are not among the sources at hand; their
transitions are modelled from the specification (§3-§5).  The defaults of a
newly created completion record (`validated=False`, `tokens_awarded=0`)
come from `db/models.py` lines 72-74, and a freshly registered child's
`token_balance=0` from `routes/children.py` line 26. -/

/-- An `ActivityCompletion` row as acted on by the pipeline
(`db/models.py` lines 62-78; photo fields omitted, they play no role in
the invariants). -/
structure Completion where
  child_id : Nat
  activity_id : Nat
  validated : Bool
  validation_response : Option String
  tokens_awarded : Nat
deriving Repr, DecidableEq

/-- The durable state of the domain store: child balances, activity
rewards, and the list of completion records in creation order. -/
structure PipelineState where
  children : Nat → Option Nat
  activities : Nat → Option Nat
  comps : List Completion

/-- Point update of a finite map. -/
def updFn (m : Nat → Option Nat) (k : Nat) (v : Nat) : Nat → Option Nat :=
  fun x => if x = k then some v else m x

/-- Modelled from the spec: the operations of the completion pipeline and
its collaborators (§4.3, §6).  `register` is child registration;
`addActivity` stores an activity with its token reward (≥ 1, §3);
`submit` creates a completion record for an existing child and activity;
`award` is the atomic award on a positive verdict (§4.3 step 6);
`reject` stores the judge's reasoning on a negative or malformed verdict
(§4.3 step 5); `serviceFail` is the `ServiceUnavailable`/`Timeout` path
(§4.3 step 4), which changes nothing. -/
inductive PipelineAct where
  | register (cid : Nat)
  | addActivity (aid reward : Nat)
  | submit (cid aid : Nat)
  | award (i : Nat)
  | reject (i : Nat) (reasoning : String)
  | serviceFail (i : Nat)
deriving Repr, DecidableEq

/-- Modelled from the spec: one pipeline transition (§4.3).  Precondition
failures (`NotFound`, double award, …) are error paths that leave the
store unchanged.  The award on completion `i` sets `validated := true`,
`tokens_awarded := reward`, and credits the child's balance, all in one
indivisible step (§4.3 step 6, §5); it fires only on a record that is
unvalidated with a zero award, making each record's award immutable once
set (§3). -/
def pipelineStep (s : PipelineState) (a : PipelineAct) : PipelineState :=
  match a with
  | .register cid =>
    match s.children cid with
    | none => { s with children := updFn s.children cid 0 }
    | some _ => s
  | .addActivity aid r =>
    match s.activities aid with
    | none => if 1 ≤ r then { s with activities := updFn s.activities aid r } else s
    | some _ => s
  | .submit cid aid =>
    if (s.children cid).isSome ∧ (s.activities aid).isSome then
      { s with comps := s.comps ++ [⟨cid, aid, false, none, 0⟩] }
    else s
  | .award i =>
    match s.comps.get? i with
    | none => s
    | some c =>
      if c.validated = false ∧ c.tokens_awarded = 0 then
        match s.activities c.activity_id, s.children c.child_id with
        | some r, some b =>
          { s with
            children := updFn s.children c.child_id (b + r)
            comps := s.comps.set i { c with validated := true, tokens_awarded := r } }
        | _, _ => s
      else s
  | .reject i reasoning =>
    match s.comps.get? i with
    | none => s
    | some c =>
      if c.validated = false then
        { s with comps := s.comps.set i { c with validation_response := some reasoning } }
      else s
  | .serviceFail _ => s

/-- The empty initial store. -/
def initState : PipelineState :=
  ⟨fun _ => none, fun _ => none, []⟩

/-- States reachable from the empty store by pipeline transitions. -/
inductive Reachable : PipelineState → Prop
  | init : Reachable initState
  | step (s : PipelineState) (a : PipelineAct) : Reachable s → Reachable (pipelineStep s a)

/-- The contribution of one completion record to child `cid`'s award sum. -/
def contrib (cid : Nat) (c : Completion) : Nat :=
  if c.child_id = cid then c.tokens_awarded else 0

/-- Sum of `tokens_awarded` over child `cid`'s completion records. -/
def childSum (cid : Nat) : List Completion → Nat
  | [] => 0
  | c :: t => contrib cid c + childSum cid t

/-- The balance/ledger invariant together with the referential-integrity
fact needed to push it through registration: every completion belongs to a
stored child, and every stored balance equals that child's award sum. -/
def PipelineInv (s : PipelineState) : Prop :=
  (∀ c ∈ s.comps, (s.children c.child_id).isSome) ∧
    (∀ cid b, s.children cid = some b → b = childSum cid s.comps)

/-- The award-flag invariant of §3: a positive `tokens_awarded` only ever
appears on a validated completion record. -/
def AwardFlagInv (s : PipelineState) : Prop :=
  ∀ c ∈ s.comps, 0 < c.tokens_awarded → c.validated = true

/-- A concrete run of the pipeline: register child 1, store activity 5 with
reward 3, submit a completion for (1, 5), and award it. -/
def demoState : PipelineState :=
  pipelineStep (pipelineStep (pipelineStep (pipelineStep initState
    (.register 1)) (.addActivity 5 3)) (.submit 1 5)) (.award 0)

/-- Decidable equality for `Except` results, used to evaluate the embedded
functions at concrete inputs. -/
instance {ε α : Type} [DecidableEq ε] [DecidableEq α] : DecidableEq (Except ε α) := fun x y =>
  match x, y with
  | .ok a, .ok b =>
    if h : a = b then isTrue (by rw [h]) else isFalse (fun hh => h (Except.ok.inj hh))
  | .error a, .error b =>
    if h : a = b then isTrue (by rw [h]) else isFalse (fun hh => h (Except.error.inj hh))
  | .ok _, .error _ => isFalse (fun hh => Except.noConfusion hh)
  | .error _, .ok _ => isFalse (fun hh => Except.noConfusion hh)

/-- Key lookup in a parsed JSON object, with Python `dict` semantics: the
last occurrence of a duplicated key wins. -/
def pyDictGet : List (String × Json) → String → Option Json
  | [], _ => none
  | (k', v) :: t, k =>
    match pyDictGet t k with
    | some v' => some v'
    | none => if k' = k then some v else none

/-- A one-child store whose child (id 7) was registered years ago and has
since aged out of `[5, 12]`, with a NULL `token_balance`. -/
def childStoreDemo : Nat → Option ChildRow := fun n =>
  if n = 7 then some ⟨"Old", ⟨2013, 1, 1⟩, none, none⟩ else none

/-- A well-formed `ActivityCreate` payload. -/
def activityDemo : ActivityCreate :=
  ⟨"Find a fountain", "Find a fountain in the park", .city, 6, 9, "Hyde Park", 2, none⟩

/-- An `ActivityCreate` payload with an inverted age range. -/
def activityBadDemo : ActivityCreate :=
  ⟨"Find a fountain", "Find a fountain in the park", .city, 12, 5, "Hyde Park", 1, none⟩

/-- A well-formed `GenerateActivitiesRequest` payload. -/
def generateDemoReq : GenerateActivitiesRequest :=
  ⟨.beach, 5, 12, "Bondi", 5⟩

/-- A `GenerateActivitiesRequest` payload with an inverted age range. -/
def generateBadDemo : GenerateActivitiesRequest :=
  ⟨.beach, 12, 5, "Bondi", 5⟩

theorem childSum_append (cid : Nat) (l1 l2 : List Completion) :
    childSum cid (l1 ++ l2) = childSum cid l1 + childSum cid l2 := by
  induction l1 with
  | nil => simp [childSum]
  | cons c t ih => simp [childSum, ih]; omega

theorem childSum_eq_zero (cid : Nat) (l : List Completion)
    (h : ∀ c ∈ l, c.child_id ≠ cid) : childSum cid l = 0 := by
  induction l with
  | nil => rfl
  | cons c t ih =>
    have hc : contrib cid c = 0 := by
      unfold contrib
      rw [if_neg (h c (List.mem_cons_self c t))]
    have ht : childSum cid t = 0 := ih (fun x hx => h x (List.mem_cons_of_mem c hx))
    simp [childSum, hc, ht]

theorem childSum_set (cid : Nat) (l : List Completion) (i : Nat) (c c' : Completion)
    (h : l.get? i = some c) :
    childSum cid (l.set i c') + contrib cid c = childSum cid l + contrib cid c' := by
  induction l generalizing i with
  | nil => simp at h
  | cons x t ih =>
    cases i with
    | zero =>
      simp only [List.get?] at h
      injection h with h
      subst h
      simp [List.set, childSum]
      omega
    | succ n =>
      simp only [List.get?] at h
      have := ih n h
      simp [List.set, childSum]
      omega

theorem inv_init : PipelineInv initState := by
  constructor
  · intro c hc
    simp [initState] at hc
  · intro cid b hb
    simp [initState] at hb

theorem inv_step (s : PipelineState) (a : PipelineAct) (h : PipelineInv s) :
    PipelineInv (pipelineStep s a) := by
  obtain ⟨h1, h2⟩ := h
  cases a with
  | register cid =>
    dsimp only [pipelineStep]
    cases hc : s.children cid with
    | some _ => exact ⟨h1, h2⟩
    | none =>
      refine ⟨?_, ?_⟩
      · intro c hcm
        simp only [updFn]
        by_cases hx : c.child_id = cid
        · simp [hx]
        · simp [hx]
          exact h1 c hcm
      · intro cid' b hb
        simp only [updFn] at hb
        by_cases hx : cid' = cid
        · subst hx
          rw [if_pos rfl] at hb
          injection hb with hb
          subst hb
          refine (childSum_eq_zero _ _ ?_).symm
          intro c hcm heq
          have hs := h1 c hcm
          rw [heq, hc] at hs
          simp at hs
        · rw [if_neg hx] at hb
          exact h2 cid' b hb
  | addActivity aid r =>
    dsimp only [pipelineStep]
    cases ha : s.activities aid with
    | some _ => exact ⟨h1, h2⟩
    | none =>
      by_cases hr : 1 ≤ r
      · rw [if_pos hr]
        exact ⟨h1, h2⟩
      · rw [if_neg hr]
        exact ⟨h1, h2⟩
  | submit cid aid =>
    dsimp only [pipelineStep]
    by_cases hg : (s.children cid).isSome ∧ (s.activities aid).isSome
    · rw [if_pos hg]
      refine ⟨?_, ?_⟩
      · intro c hcm
        rcases List.mem_append.mp hcm with hin | hnew
        · exact h1 c hin
        · simp at hnew
          subst hnew
          exact hg.1
      · intro cid' b hb
        have := h2 cid' b hb
        rw [childSum_append]
        simp [childSum, contrib]
        omega
    · rw [if_neg hg]
      exact ⟨h1, h2⟩
  | award i =>
    dsimp only [pipelineStep]
    cases hg : s.comps.get? i with
    | none => exact ⟨h1, h2⟩
    | some c =>
      dsimp only
      by_cases hguard : c.validated = false ∧ c.tokens_awarded = 0
      · rw [if_pos hguard]
        cases hact : s.activities c.activity_id with
        | none => exact ⟨h1, h2⟩
        | some r =>
          cases hch : s.children c.child_id with
          | none => exact ⟨h1, h2⟩
          | some b =>
            dsimp only
            refine ⟨?_, ?_⟩
            · intro x hxm
              dsimp only at hxm ⊢
              rcases List.mem_or_eq_of_mem_set hxm with hin | hnew
              · simp only [updFn]
                by_cases hx : x.child_id = c.child_id
                · simp [hx]
                · simp [hx]
                  exact h1 x hin
              · subst hnew
                simp only [updFn]
                simp
            · intro cid' b' hb'
              dsimp only at hb' ⊢
              simp only [updFn] at hb'
              have hset := childSum_set cid' s.comps i c
                { c with validated := true, tokens_awarded := r } hg
              by_cases hx : cid' = c.child_id
              · subst hx
                rw [if_pos rfl] at hb'
                injection hb' with hb'
                subst hb'
                have hold := h2 c.child_id b hch
                have hcontrib : contrib c.child_id c = 0 := by
                  unfold contrib
                  rw [if_pos rfl, hguard.2]
                have hcontrib' :
                    contrib c.child_id { c with validated := true, tokens_awarded := r } = r := by
                  unfold contrib
                  rw [if_pos rfl]
                rw [hcontrib, hcontrib'] at hset
                omega
              · rw [if_neg hx] at hb'
                have hold := h2 cid' b' hb'
                have hne : ¬(c.child_id = cid') := fun hh => hx hh.symm
                have hcontrib : contrib cid' c = 0 := by
                  unfold contrib
                  rw [if_neg hne]
                have hcontrib' :
                    contrib cid' { c with validated := true, tokens_awarded := r } = 0 := by
                  unfold contrib
                  rw [if_neg hne]
                rw [hcontrib, hcontrib'] at hset
                omega
      · rw [if_neg hguard]
        exact ⟨h1, h2⟩
  | reject i reasoning =>
    dsimp only [pipelineStep]
    cases hg : s.comps.get? i with
    | none => exact ⟨h1, h2⟩
    | some c =>
      dsimp only
      by_cases hguard : c.validated = false
      · rw [if_pos hguard]
        refine ⟨?_, ?_⟩
        · intro x hxm
          dsimp only at hxm ⊢
          rcases List.mem_or_eq_of_mem_set hxm with hin | hnew
          · exact h1 x hin
          · subst hnew
            exact h1 c (List.get?_mem hg)
        · intro cid' b' hb'
          dsimp only at hb' ⊢
          have hold := h2 cid' b' hb'
          have hset := childSum_set cid' s.comps i c
            { c with validation_response := some reasoning } hg
          have hcontrib :
              contrib cid' { c with validation_response := some reasoning } = contrib cid' c := by
            unfold contrib
            rfl
          rw [hcontrib] at hset
          omega
      · rw [if_neg hguard]
        exact ⟨h1, h2⟩
  | serviceFail i =>
    dsimp only [pipelineStep]
    exact ⟨h1, h2⟩

theorem reachable_inv (s : PipelineState) (h : Reachable s) : PipelineInv s := by
  induction h with
  | init => exact inv_init
  | step s' a _ ih => exact inv_step s' a ih

theorem awardFlagInv_init : AwardFlagInv initState := by
  intro c hc
  simp [initState] at hc

theorem awardFlagInv_step (s : PipelineState) (a : PipelineAct) (h : AwardFlagInv s) :
    AwardFlagInv (pipelineStep s a) := by
  cases a with
  | register cid =>
    dsimp only [pipelineStep]
    cases hc : s.children cid with
    | none => intro c hcm; exact h c hcm
    | some _ => exact h
  | addActivity aid r =>
    dsimp only [pipelineStep]
    cases ha : s.activities aid with
    | none =>
      by_cases hr : 1 ≤ r
      · rw [if_pos hr]; intro c hcm; exact h c hcm
      · rw [if_neg hr]; exact h
    | some _ => exact h
  | submit cid aid =>
    dsimp only [pipelineStep]
    by_cases hg : (s.children cid).isSome ∧ (s.activities aid).isSome
    · rw [if_pos hg]
      intro c hcm ht
      rcases List.mem_append.mp hcm with hin | hnew
      · exact h c hin ht
      · simp at hnew
        subst hnew
        simp at ht
    · rw [if_neg hg]; exact h
  | award i =>
    dsimp only [pipelineStep]
    cases hg : s.comps.get? i with
    | none => exact h
    | some c =>
      dsimp only
      by_cases hguard : c.validated = false ∧ c.tokens_awarded = 0
      · rw [if_pos hguard]
        cases hact : s.activities c.activity_id with
        | none => exact h
        | some r =>
          cases hch : s.children c.child_id with
          | none => exact h
          | some b =>
            dsimp only
            intro x hxm ht
            dsimp only at hxm
            rcases List.mem_or_eq_of_mem_set hxm with hin | hnew
            · exact h x hin ht
            · subst hnew
              rfl
      · rw [if_neg hguard]; exact h
  | reject i reasoning =>
    dsimp only [pipelineStep]
    cases hg : s.comps.get? i with
    | none => exact h
    | some c =>
      dsimp only
      by_cases hguard : c.validated = false
      · rw [if_pos hguard]
        intro x hxm ht
        dsimp only at hxm
        rcases List.mem_or_eq_of_mem_set hxm with hin | hnew
        · exact h x hin ht
        · subst hnew
          exact h c (List.get?_mem hg) ht
      · rw [if_neg hguard]; exact h
  | serviceFail i =>
    dsimp only [pipelineStep]
    exact h

theorem reachable_awardFlagInv (s : PipelineState) (h : Reachable s) : AwardFlagInv s := by
  induction h with
  | init => exact awardFlagInv_init
  | step s' a _ ih => exact awardFlagInv_step s' a ih

/-! ## Claim theorems -/

/-- C1: at every reachable state of the system, a stored child's token
balance equals the sum of `tokens_awarded` over that child's completion
records. -/
theorem c1_balance_matches_ledger (s : PipelineState) (h : Reachable s)
    (cid b : Nat) (hb : s.children cid = some b) : b = childSum cid s.comps :=
  (reachable_inv s h).2 cid b hb

/-- C1 witness: the invariant evaluated on the four-step run `demoState`,
whose only child holds balance 3 after one award of reward 3. -/
theorem c1_balance_matches_ledger_witness : (3 : Nat) = childSum 1 demoState.comps :=
  c1_balance_matches_ledger demoState
    (Reachable.step _ _ (Reachable.step _ _ (Reachable.step _ _
      (Reachable.step _ _ Reachable.init))))
    1 3 rfl

/-- C2: at every reachable state, a completion record with a positive
token award is validated (records are created with `validated = false`,
`tokens_awarded = 0`, and only the atomic award sets both). -/
theorem c2_award_implies_validated (s : PipelineState) (h : Reachable s)
    (c : Completion) (hc : c ∈ s.comps) (ht : 0 < c.tokens_awarded) :
    c.validated = true :=
  reachable_awardFlagInv s h c hc ht

/-- C2 witness: the awarded record of `demoState` carries tokens 3 and is
validated. -/
theorem c2_award_implies_validated_witness :
    (⟨1, 5, true, none, 3⟩ : Completion).validated = true :=
  c2_award_implies_validated demoState
    (Reachable.step _ _ (Reachable.step _ _ (Reachable.step _ _
      (Reachable.step _ _ Reachable.init))))
    ⟨1, 5, true, none, 3⟩ (by decide) (by decide)

/-- C3 counterexample: a structurally valid JSON object lacking the
`valid` field is returned as a verdict by the parsing step — no
`MalformedVerdict`-style error is signalled for it. -/
theorem c3_missing_valid_not_flagged :
    parseVerdictStep "\x7b\"reasoning\": \"hm\"\x7d" =
      Except.ok (Json.obj [("reasoning", Json.str "hm")]) := rfl

/-- C3 (amended): on structurally invalid JSON the parsing step of
`validate_photo` raises `json.JSONDecodeError` rather than returning a
verdict, while a decodable object is returned as-is with no check of the
`valid` field. -/
theorem c3_malformed_gives_decode_error :
    (∀ text, jsonLoads (pyStrip (fenceStrip text)) = none →
      parseVerdictStep text = Except.error PyErr.jsonDecodeError) ∧
    parseVerdictStep "\x7b\"reasoning\": \"none given\"\x7d" =
      Except.ok (Json.obj [("reasoning", Json.str "none given")]) := by
  constructor
  · intro text h
    unfold parseVerdictStep
    rw [h]
  · rfl

/-- C3 witness: the spec's own no-JSON example raises a decode error. -/
theorem c3_malformed_gives_decode_error_witness :
    parseVerdictStep "I cannot determine this." = Except.error PyErr.jsonDecodeError :=
  c3_malformed_gives_decode_error.1 "I cannot determine this." rfl

/-- C4 counterexample: the spec's leading-prose input produces a JSON
decode error — the step does not locate the object boundary in unfenced
text and yields no verdict. -/
theorem c4_prose_input_fails :
    parseVerdictStep "Sure! \x7b\"valid\": false, \"reasoning\": \"no fountain visible\"\x7d" =
      Except.error PyErr.jsonDecodeError := rfl

/-- C4 (amended): when the response does not start with a code fence the
text is handed unchanged to the JSON decoder, so leading prose before the
object makes the step raise a decode error instead of yielding the
verdict. -/
theorem c4_no_fence_no_boundary_search (text : String)
    (h1 : startsList "```".toList text.toList = false)
    (h2 : jsonLoads (pyStrip text) = none) :
    parseVerdictStep text = Except.error PyErr.jsonDecodeError := by
  unfold parseVerdictStep
  have hf : fenceStrip text = text := by
    unfold fenceStrip
    rw [h1]
    simp
  rw [hf, h2]

/-- C4 witness: another prose-prefixed, unfenced response raises a decode
error. -/
theorem c4_no_fence_no_boundary_search_witness :
    parseVerdictStep "Here you go: \x7b\"valid\": true, \"reasoning\": \"ok\"\x7d" =
      Except.error PyErr.jsonDecodeError :=
  c4_no_fence_no_boundary_search "Here you go: \x7b\"valid\": true, \"reasoning\": \"ok\"\x7d" rfl rfl

/-- C5: the fenced input strips its fence and language tag and parses to
the verdict `valid = true`, `reasoning = "ok"`. -/
theorem c5_fenced_json_parses :
    parseVerdictStep "```json\n\x7b\"valid\": true, \"reasoning\": \"ok\"\x7d\n```" =
      Except.ok (Json.obj [("valid", Json.bool true), ("reasoning", Json.str "ok")]) := rfl

/-- C6 counterexample: a response with a boolean `valid` but no
`reasoning` field is returned with no `reasoning` entry at all — it is not
defaulted to the empty string. -/
theorem c6_missing_reasoning_not_defaulted :
    parseVerdictStep "\x7b\"valid\": true\x7d" = Except.ok (Json.obj [("valid", Json.bool true)]) ∧
    pyDictGet [("valid", Json.bool true)] "reasoning" = none := ⟨rfl, rfl⟩

/-- C6 (amended): `validate_photo` returns the decoded JSON object
unchanged (no post-processing of any field), so a missing `reasoning`
field stays missing in the returned verdict. -/
theorem c6_verdict_returned_unchanged :
    (∀ (svc : AIService) (img d c resp : String), svc.client = some () →
      validate_photo svc img d c resp = parseVerdictStep resp) ∧
    parseVerdictStep "\x7b\"valid\": false\x7d" =
      Except.ok (Json.obj [("valid", Json.bool false)]) := by
  constructor
  · intro svc img d c resp h
    unfold validate_photo
    rw [h]
  · rfl

/-- C6 witness: a configured service returns exactly the parse result of
the raw response. -/
theorem c6_verdict_returned_unchanged_witness :
    validate_photo (mkAIService (some "key")) "img" "desc" "crit" "\x7b\"valid\": false\x7d" =
      parseVerdictStep "\x7b\"valid\": false\x7d" :=
  c6_verdict_returned_unchanged.1 (mkAIService (some "key")) "img" "desc" "crit"
    "\x7b\"valid\": false\x7d" rfl

/-- C7: with no API key configured (no client), `validate_photo` raises
`ValueError("GROQ_API_KEY not configured")` for every input instead of
returning a verdict, and the service-failure path of the pipeline leaves
the stored state untouched. -/
theorem c7_missing_credential_errors (key : Option String) (h : pyTruthyStr key = false)
    (img d c resp : String) (s : PipelineState) (i : Nat) :
    validate_photo (mkAIService key) img d c resp =
      Except.error (PyErr.valueError "GROQ_API_KEY not configured") ∧
    pipelineStep s (.serviceFail i) = s := by
  constructor
  · simp [validate_photo, mkAIService, h]
  · rfl

/-- C7 witness: the unconfigured service at a concrete input. -/
theorem c7_missing_credential_errors_witness :
    validate_photo (mkAIService none) "" "" "" "\x7b\"valid\": true\x7d" =
      Except.error (PyErr.valueError "GROQ_API_KEY not configured") ∧
    pipelineStep initState (.serviceFail 0) = initState :=
  c7_missing_credential_errors none rfl "" "" "" "\x7b\"valid\": true\x7d" initState 0

/-- C8 counterexample: a request whose computed age is 8 (in range) is
rejected because its name is empty — age in `[5, 12]` is not the only
acceptance condition. -/
theorem c8_age_not_sole_gate :
    childRegisterValidate ⟨2026, 10, 12⟩ ⟨"", ⟨2018, 1, 1⟩, none⟩ ≠
      Except.ok ⟨"", ⟨2018, 1, 1⟩, none⟩ ∧
    5 ≤ computeAge ⟨2026, 10, 12⟩ ⟨2018, 1, 1⟩ ∧
    computeAge ⟨2026, 10, 12⟩ ⟨2018, 1, 1⟩ ≤ 12 :=
  ⟨by decide, by decide, by decide⟩

/-- C8 (amended): `ChildRegister` validation accepts a request exactly
when the name length is in `[1, 100]`, the password (if present) has
length ≥ 6, and the age computed from `date_of_birth` lies in `[5, 12]`;
an accepted registration stores the request's date of birth and a token
balance of 0. -/
theorem c8_registration_acceptance (today : PyDate) (req : ChildRegister)
    (hashFn : String → String) :
    (childRegisterValidate today req = Except.ok req ↔
      (1 ≤ req.name.length ∧ req.name.length ≤ 100 ∧
        (∀ p, req.password = some p → 6 ≤ p.length) ∧
        5 ≤ computeAge today req.date_of_birth ∧
        computeAge today req.date_of_birth ≤ 12)) ∧
    (register_child hashFn req).token_balance = some 0 ∧
    (register_child hashFn req).date_of_birth = req.date_of_birth := by
  refine ⟨⟨?_, ?_⟩, rfl, rfl⟩
  · intro hv
    unfold childRegisterValidate ageValidator at hv
    by_cases h1 : req.name.length < 1
    · rw [if_pos h1] at hv
      exact Except.noConfusion hv
    rw [if_neg h1] at hv
    by_cases h2 : 100 < req.name.length
    · rw [if_pos h2] at hv
      exact Except.noConfusion hv
    rw [if_neg h2] at hv
    by_cases h3 : (match req.password with
        | some p => decide (p.length < 6)
        | none => false) = true
    · rw [if_pos h3] at hv
      exact Except.noConfusion hv
    rw [if_neg h3] at hv
    by_cases h4 : computeAge today req.date_of_birth < 5 ∨
        12 < computeAge today req.date_of_birth
    · rw [if_pos h4] at hv
      exact Except.noConfusion hv
    · refine ⟨by omega, by omega, ?_, by omega, by omega⟩
      intro p hp
      rw [hp] at h3
      simp at h3
      omega
  · rintro ⟨ha, hb, hc, hd, he⟩
    have h1 : ¬(req.name.length < 1) := by omega
    have h2 : ¬(100 < req.name.length) := by omega
    have hpw : (match req.password with
        | some p => decide (p.length < 6)
        | none => false) = false := by
      cases hp : req.password with
      | none => rfl
      | some p =>
        have hge := hc p hp
        simp only [decide_eq_false_iff_not]
        omega
    have h4 : ¬(computeAge today req.date_of_birth < 5 ∨
        12 < computeAge today req.date_of_birth) := by omega
    simp [childRegisterValidate, ageValidator, h1, h2, hpw, h4]

/-- C8 witness: a well-formed request (age 8) is accepted and its stored
row carries the date of birth and balance 0. -/
theorem c8_registration_acceptance_witness :
    (childRegisterValidate ⟨2026, 10, 12⟩ ⟨"Alex", ⟨2018, 1, 1⟩, none⟩ =
        Except.ok ⟨"Alex", ⟨2018, 1, 1⟩, none⟩ ↔
      (1 ≤ ("Alex" : String).length ∧ ("Alex" : String).length ≤ 100 ∧
        (∀ p, (none : Option String) = some p → 6 ≤ p.length) ∧
        5 ≤ computeAge ⟨2026, 10, 12⟩ ⟨2018, 1, 1⟩ ∧
        computeAge ⟨2026, 10, 12⟩ ⟨2018, 1, 1⟩ ≤ 12)) ∧
    (register_child id ⟨"Alex", ⟨2018, 1, 1⟩, none⟩).token_balance = some 0 ∧
    (register_child id ⟨"Alex", ⟨2018, 1, 1⟩, none⟩).date_of_birth = ⟨2018, 1, 1⟩ :=
  c8_registration_acceptance ⟨2026, 10, 12⟩ ⟨"Alex", ⟨2018, 1, 1⟩, none⟩ id

/-- C9 counterexample: both schemas accept inverted age ranges —
`age_min ≤ age_max` is not enforced. -/
theorem c9_inverted_range_accepted :
    activityCreateValid activityBadDemo = true ∧
    ¬(activityBadDemo.age_min ≤ activityBadDemo.age_max) ∧
    generateRequestValid generateBadDemo = true ∧
    ¬(generateBadDemo.age_min ≤ generateBadDemo.age_max) := by
  refine ⟨by decide, by decide, by decide, by decide⟩

/-- C9 (amended): every activity accepted by the `ActivityCreate` schema
and every request accepted by the `GenerateActivitiesRequest` schema has
`age_min` and `age_max` each in `[5, 12]`; the relation
`age_min ≤ age_max` is not checked by either schema. -/
theorem c9_schema_age_bounds (a : ActivityCreate) (g : GenerateActivitiesRequest) :
    (activityCreateValid a = true →
      5 ≤ a.age_min ∧ a.age_min ≤ 12 ∧ 5 ≤ a.age_max ∧ a.age_max ≤ 12) ∧
    (generateRequestValid g = true →
      5 ≤ g.age_min ∧ g.age_min ≤ 12 ∧ 5 ≤ g.age_max ∧ g.age_max ≤ 12) := by
  constructor
  · intro h
    simp [activityCreateValid] at h
    exact ⟨by omega, by omega, by omega, by omega⟩
  · intro h
    simp [generateRequestValid] at h
    exact ⟨by omega, by omega, by omega, by omega⟩

/-- C9 witness: the bounds evaluated on accepted concrete payloads. -/
theorem c9_schema_age_bounds_witness :
    (5 ≤ activityDemo.age_min ∧ activityDemo.age_min ≤ 12 ∧
      5 ≤ activityDemo.age_max ∧ activityDemo.age_max ≤ 12) ∧
    (5 ≤ generateDemoReq.age_min ∧ generateDemoReq.age_min ≤ 12 ∧
      5 ≤ generateDemoReq.age_max ∧ generateDemoReq.age_max ≤ 12) :=
  ⟨(c9_schema_age_bounds activityDemo generateDemoReq).1 (by decide),
   (c9_schema_age_bounds activityDemo generateDemoReq).2 (by decide)⟩

/-- C10 counterexample: child 7 exists with a NULL balance, yet
`get_child` returns a response-validation error (its age, 13, violates
the `ChildResponse` constraint `age ∈ [5, 12]`) instead of returning
balance 0; only `get_tokens` reports 0. -/
theorem c10_aged_out_child_breaks_get_child :
    childStoreDemo 7 = some ⟨"Old", ⟨2013, 1, 1⟩, none, none⟩ ∧
    get_child ⟨2026, 10, 12⟩ childStoreDemo 7 =
      Except.error (RouteErr.validation "Input should be less than or equal to 12") ∧
    get_tokens childStoreDemo 7 = Except.ok ⟨7, 0⟩ := ⟨rfl, rfl, rfl⟩

/-- C10 (amended): for an unknown child id both endpoints fail with
404; for an existing child `get_tokens` reports `token_balance or 0`
(0 when the stored balance is NULL), and `get_child`, whenever it
returns a response, reports the same defaulted balance — though it can
fail with a response-validation error instead when the child's computed
age falls outside `[5, 12]`. -/
theorem c10_token_reporting (today : PyDate) (store : Nat → Option ChildRow) (cid : Nat) :
    (store cid = none →
      get_child today store cid = Except.error (RouteErr.http 404 "Child not found") ∧
      get_tokens store cid = Except.error (RouteErr.http 404 "Child not found")) ∧
    (∀ ch, store cid = some ch →
      get_tokens store cid = Except.ok ⟨cid, pyIntOrZero ch.token_balance⟩ ∧
      (ch.token_balance = none → get_tokens store cid = Except.ok ⟨cid, 0⟩)) ∧
    (∀ ch r, store cid = some ch → get_child today store cid = Except.ok r →
      r.token_balance = pyIntOrZero ch.token_balance ∧
      (ch.token_balance = none → r.token_balance = 0)) := by
  refine ⟨?_, ?_, ?_⟩
  · intro h
    unfold get_child get_tokens
    rw [h]
    exact ⟨rfl, rfl⟩
  · intro ch h
    unfold get_tokens
    rw [h]
    dsimp only
    exact ⟨rfl, fun hb => by rw [hb]; rfl⟩
  · intro ch r h hr
    unfold get_child at hr
    rw [h] at hr
    dsimp only at hr
    unfold mkChildResponse at hr
    by_cases hage : computeAge today ch.date_of_birth < 5 ∨
        12 < computeAge today ch.date_of_birth
    · rw [if_pos hage] at hr
      exact Except.noConfusion hr
    · rw [if_neg hage] at hr
      dsimp only at hr
      injection hr with hr
      subst hr
      exact ⟨rfl, fun hb => by rw [hb]; rfl⟩

/-- C10 witness: the 404 path on an empty slot and the NULL-balance
defaulting of `get_tokens`. -/
theorem c10_token_reporting_witness :
    (get_child ⟨2026, 10, 12⟩ childStoreDemo 3 =
        Except.error (RouteErr.http 404 "Child not found") ∧
      get_tokens childStoreDemo 3 = Except.error (RouteErr.http 404 "Child not found")) ∧
    get_tokens childStoreDemo 7 = Except.ok ⟨7, 0⟩ :=
  ⟨(c10_token_reporting ⟨2026, 10, 12⟩ childStoreDemo 3).1 rfl,
   ((c10_token_reporting ⟨2026, 10, 12⟩ childStoreDemo 7).2.1
     ⟨"Old", ⟨2013, 1, 1⟩, none, none⟩ rfl).2 rfl⟩
